import Mathlib

/-!
Verification of the car-manager server (src/index.js, src/config.js).

The server exposes an upload endpoint backed by multer disk storage, a
static file prefix, and three vehicle-condition endpoints backed by a
Firestore document store.  We embed the JSON data model, the document
store, the condition endpoints and the upload pipeline as executable
Lean functions, and prove the specified properties about them.
-/

/-- JSON values as stored in the document database and exchanged in
request / response bodies.  Objects are ordered key-value lists, which
matches JavaScript object semantics (insertion order, unique keys once
normalised). -/
inductive JsonVal where
  | str (s : String)
  | num (n : Int)
  | boolVal (b : Bool)
  | nullVal
  | arr (elems : List JsonVal)
  | obj (fields : List (String × JsonVal))
deriving Repr

/-- A JavaScript object: an ordered association list of fields. -/
abbrev Obj := List (String × JsonVal)

/-- The document store: Firestore collection "vehicles", mapping document
ids to document data. -/
abbrev Store := List (String × Obj)

/-- Property access on an association list (first match; JavaScript
objects have unique keys, so this is JS property lookup). -/
def lookupA {α : Type} : List (String × α) → String → Option α
  | [], _ => none
  | (k, v) :: rest, key => if k = key then some v else lookupA rest key

/-- The keys of an association list, in order. -/
def objKeys {α : Type} (l : List (String × α)) : List String := l.map Prod.fst

/-- Assign a field of a JavaScript object: overwrite in place if the key
exists, otherwise append (JS assignment semantics). -/
def setField : Obj → String → JsonVal → Obj
  | [], key, val => [(key, val)]
  | (k, v) :: rest, key, val =>
    if k = key then (k, val) :: rest else (k, v) :: setField rest key val

/-- JavaScript spread: lay the fields of src over base, in order.
An object literal such as the one at src/index.js:150,
  const conditionData = { id: uuidv4(), ...req.body }
is spreadInto [("id", str u)] body. -/
def spreadInto (base : Obj) (src : Obj) : Obj :=
  src.foldl (fun o kv => setField o kv.1 kv.2) base

/-- JavaScript truthiness of a JSON value (null, false, 0 and "" are
falsy; arrays and objects are always truthy). -/
def jsTruthy : JsonVal → Bool
  | .nullVal => false
  | .boolVal b => b
  | .num n => n != 0
  | .str s => s != ""
  | .arr _ => true
  | .obj _ => true

/-- The expression vehicleData.conditions in both condition endpoints,
followed by use as an array (.push at src/index.js:165, .filter at
src/index.js:193).  A missing or falsy field defaults to the empty
array; a truthy non-array value makes the subsequent array method throw
a TypeError, which the route's try/catch turns into a 500 — modelled as
none. -/
def condsOf (doc : Obj) : Option (List JsonVal) :=
  match lookupA doc "conditions" with
  | none => some []
  | some v =>
    if jsTruthy v then
      match v with
      | .arr xs => some xs
      | _ => none
    else some []

/-- Firestore vehicleRef.update(fields): merge the given top-level
fields into the stored document, leaving other fields untouched
(src/index.js:167 and src/index.js:197). -/
def updateDoc (s : Store) (docId : String) (fields : Obj) : Store :=
  s.map (fun kv => if kv.1 = docId then (kv.1, spreadInto kv.2 fields) else kv)

/-- An HTTP response: status code and JSON object body. -/
structure Resp where
  status : Nat
  body : Obj
deriving Repr

/-- POST /api/vehicles/:vehicleId/conditions (src/index.js:144-177).
freshId stands for the uuidv4() value generated for this request.
Returns the response together with the resulting store state. -/
def addCondition (freshId : String) (s : Store) (vehicleId : String) (body : Obj) :
    Resp × Store :=
  let conditionData := spreadInto [("id", JsonVal.str freshId)] body
  match lookupA s vehicleId with
  | none => ({ status := 404, body := [("error", JsonVal.str "Vehicle not found")] }, s)
  | some vehicleData =>
    match condsOf vehicleData with
    | none =>
      ({ status := 500, body := [("error", JsonVal.str "Error adding condition")] }, s)
    | some conditions =>
      let newConds := conditions ++ [JsonVal.obj conditionData]
      ({ status := 201, body := conditionData },
       updateDoc s vehicleId [("conditions", JsonVal.arr newConds)])

/-- One evaluation of the delete filter predicate
  condition => condition.id !== conditionId
(src/index.js:194) as the keep-flag.  Property access on null throws a
TypeError (none); on any non-object it yields undefined, and a strict
comparison of undefined (or any non-string id) with the string
conditionId keeps the record. -/
def keepCond (conditionId : String) : JsonVal → Option Bool
  | .nullVal => none
  | .obj fields =>
    match lookupA fields "id" with
    | some (.str s) => some (s != conditionId)
    | _ => some true
  | _ => some true

/-- conditions.filter(condition => condition.id !== conditionId)
(src/index.js:193-195), propagating a TypeError as none. -/
def filterConds (conditionId : String) : List JsonVal → Option (List JsonVal)
  | [] => some []
  | c :: rest =>
    match keepCond conditionId c with
    | none => none
    | some keep =>
      match filterConds conditionId rest with
      | none => none
      | some tail => some (if keep then c :: tail else tail)

/-- DELETE /api/vehicles/:vehicleId/conditions/:conditionId
(src/index.js:179-204). -/
def deleteCondition (s : Store) (vehicleId : String) (conditionId : String) :
    Resp × Store :=
  match lookupA s vehicleId with
  | none => ({ status := 404, body := [("error", JsonVal.str "Vehicle not found")] }, s)
  | some vehicleData =>
    match condsOf vehicleData with
    | none =>
      ({ status := 500, body := [("error", JsonVal.str "Error deleting condition")] }, s)
    | some conditions =>
      match filterConds conditionId conditions with
      | none =>
        ({ status := 500, body := [("error", JsonVal.str "Error deleting condition")] }, s)
      | some conditions' =>
        ({ status := 200, body := [("message", JsonVal.str "Condition deleted successfully")] },
         updateDoc s vehicleId [("conditions", JsonVal.arr conditions')])

/-- GET /api/vehicles/:vehicleId (src/index.js:207-232).  The response
body is the object literal
  { vehicleId, ...vehicleData, conditions: vehicleData.conditions || [] }.
Pure read: the store is not modified. -/
def getVehicle (s : Store) (vehicleId : String) : Resp :=
  match lookupA s vehicleId with
  | none => { status := 404, body := [("error", JsonVal.str "Vehicle not found")] }
  | some vehicleData =>
    let base := spreadInto [("vehicleId", JsonVal.str vehicleId)] vehicleData
    let condsVal :=
      match lookupA vehicleData "conditions" with
      | none => JsonVal.arr []
      | some v => if jsTruthy v then v else JsonVal.arr []
    { status := 200, body := setField base "conditions" condsVal }

/-- Split a character list into path segments at every '/', keeping
empty segments (they are filtered out by the caller, as Node joins
non-empty parts with a separator and normalize collapses duplicate
separators). -/
def splitSegsL : List Char → List Char → List (List Char)
  | cur, [] => [cur.reverse]
  | cur, c :: rest =>
    if c = '/' then cur.reverse :: splitSegsL [] rest else splitSegsL (c :: cur) rest

/-- Resolution of "." and ".." segments performed by Node path.normalize
on an absolute path: "." disappears, ".." pops the previous segment, and
".." at the root is dropped (one cannot ascend above "/"). -/
def resolveDots : List (List Char) → List (List Char) → List (List Char)
  | acc, [] => acc.reverse
  | acc, seg :: rest =>
    if seg = ['.'] then resolveDots acc rest
    else if seg = ['.', '.'] then
      match acc with
      | [] => resolveDots [] rest
      | _ :: t => resolveDots t rest
    else resolveDots (seg :: acc) rest

/-- Node path.join applied to an absolute first part: join the parts
with "/" and normalize the result (src/index.js:128 joins "/documents",
vehicleId, type and the generated filename). -/
def pathJoinAbs (parts : List String) : String :=
  let segs := ((parts.map String.data).flatMap (splitSegsL [])).filter (fun l => !l.isEmpty)
  String.mk ('/' :: List.intercalate ['/'] (resolveDots [] segs))

/-- The one file part of a multipart upload request. -/
structure FilePart where
  originalname : String
  size : Nat
deriving Repr

/-- An upload request: the two text fields (none when the field is
absent from the form) and the optional file part.  Text fields are
assumed to precede the file part in the multipart stream, as the spec
requires (the destination callback reads req.body as parsed so far). -/
structure UploadReq where
  vehicleId : Option String
  type : Option String
  file : Option FilePart
deriving Repr

/-- Outcome of an upload request: HTTP status, the message field of the
JSON response, the returned path when present, and the list of file
paths left persisted on disk. -/
structure UploadResult where
  status : Nat
  message : String
  path : Option String
  persisted : List String
deriving Repr

/-- multer fileSize limit, src/index.js:67: 10 * 1024 * 1024. -/
def UPLOAD_SIZE_LIMIT : Nat := 10 * 1024 * 1024

/-- JavaScript truthiness of an optional text field: absent and "" are
falsy (the guards at src/index.js:36 and src/index.js:113 test
!vehicleId and !type). -/
def truthyStr : Option String → Bool
  | none => false
  | some s => s != ""

/-- POST /api/upload (src/index.js:28-69 storage engine and 82-141
handler).  Stages, in stream order:
- no file part: multer reports no error and sets no req.file, so the
  handler answers 400 "No file uploaded" (src/index.js:102-108);
- file part present but vehicleId or type falsy: the destination
  callback fails with new Error("Missing vehicleId or type")
  (src/index.js:36-39), which is not a MulterError, so the handler's
  second branch answers 500 "Upload error" (src/index.js:93-99) and the
  file is never written;
- file larger than the limit: multer raises a MulterError, answered
  with 400 "File upload error" (src/index.js:87-92); the partially
  written file is removed by multer, so nothing is persisted;
- otherwise the file is stored as {Date.now()}-{originalname} under
  documents/{vehicleId}/{type}/ and the handler re-checks the fields
  (src/index.js:113, dead under the fields-before-file protocol) before
  answering 200 with path.join("/documents", vehicleId, type, filename)
  (src/index.js:128-132). -/
def handleUpload (now : Nat) (req : UploadReq) : UploadResult :=
  match req.file with
  | none =>
    { status := 400, message := "No file uploaded", path := none, persisted := [] }
  | some f =>
    if !truthyStr req.vehicleId || !truthyStr req.type then
      { status := 500, message := "Upload error", path := none, persisted := [] }
    else if f.size > UPLOAD_SIZE_LIMIT then
      { status := 400, message := "File upload error", path := none, persisted := [] }
    else
      let vehicleId := req.vehicleId.getD ""
      let ty := req.type.getD ""
      let filename := Nat.repr now ++ "-" ++ f.originalname
      let storedPath := pathJoinAbs ["/documents", vehicleId, ty, filename]
      if !truthyStr req.vehicleId || !truthyStr req.type then
        { status := 400, message := "Missing required fields", path := none,
          persisted := [storedPath] }
      else
        { status := 200, message := "File uploaded successfully", path := some storedPath,
          persisted := [storedPath] }

example :
    (handleUpload 123 { vehicleId := some "v1", type := some "insurance",
                        file := some { originalname := "card.pdf", size := 5 } }).path
      = some "/documents/v1/insurance/123-card.pdf" := rfl
example :
    (handleUpload 123 { vehicleId := some "..", type := some "t",
                        file := some { originalname := "card.pdf", size := 5 } }).path
      = some "/t/123-card.pdf" := rfl
example :
    (handleUpload 0 { vehicleId := none, type := some "t",
                      file := some { originalname := "a", size := 5 } }).status = 500 := rfl

/-! ## Association-list lemmas -/

theorem lookupA_setField_self (o : Obj) (k : String) (v : JsonVal) :
    lookupA (setField o k v) k = some v := by
  induction o with
  | nil => simp [setField, lookupA]
  | cons kv rest ih =>
    by_cases h : kv.1 = k
    · simp [setField, lookupA, h]
    · simp [setField, lookupA, h, ih]

theorem lookupA_setField_ne (o : Obj) (k : String) (v : JsonVal) (k' : String)
    (h : k' ≠ k) : lookupA (setField o k v) k' = lookupA o k' := by
  induction o with
  | nil => simp [setField, lookupA, Ne.symm h]
  | cons kv rest ih =>
    rcases kv with ⟨k1, v1⟩
    by_cases hk : k1 = k
    · subst hk
      simp [setField, lookupA, Ne.symm h]
    · simp [setField, lookupA, hk, ih]

theorem objKeys_cons (k : String) (v : JsonVal) (rest : Obj) :
    objKeys ((k, v) :: rest) = k :: objKeys rest := rfl

theorem lookupA_eq_none_iff (l : Obj) (k : String) :
    lookupA l k = none ↔ k ∉ objKeys l := by
  induction l with
  | nil => simp [lookupA, objKeys]
  | cons kv rest ih =>
    rcases kv with ⟨k1, v1⟩
    by_cases h : k1 = k
    · subst h
      simp [lookupA, objKeys]
    · rw [show lookupA ((k1, v1) :: rest) k = if k1 = k then some v1 else lookupA rest k
          from rfl, if_neg h, ih, objKeys_cons]
      simp [Ne.symm h]

theorem spreadInto_cons (base : Obj) (k : String) (v : JsonVal) (rest : Obj) :
    spreadInto base ((k, v) :: rest) = spreadInto (setField base k v) rest := rfl

theorem spreadInto_single (base : Obj) (k : String) (v : JsonVal) :
    spreadInto base [(k, v)] = setField base k v := rfl

theorem lookupA_spreadInto_notKey (base src : Obj) (k : String)
    (h : k ∉ objKeys src) :
    lookupA (spreadInto base src) k = lookupA base k := by
  induction src generalizing base with
  | nil => rfl
  | cons kv rest ih =>
    rcases kv with ⟨k1, v1⟩
    rw [spreadInto_cons]
    have hne : k ≠ k1 := by
      intro hk
      exact h (by rw [objKeys_cons, hk]; exact List.mem_cons_self _ _)
    have hrest : k ∉ objKeys rest := by
      intro hk
      exact h (by rw [objKeys_cons]; exact List.mem_cons_of_mem _ hk)
    rw [ih _ hrest, lookupA_setField_ne base k1 v1 k hne]

theorem lookupA_spreadInto_of_lookup (base src : Obj) (k : String) (v : JsonVal)
    (hnd : (objKeys src).Nodup) (h : lookupA src k = some v) :
    lookupA (spreadInto base src) k = some v := by
  induction src generalizing base with
  | nil => simp [lookupA] at h
  | cons kv rest ih =>
    rcases kv with ⟨k1, v1⟩
    rw [spreadInto_cons]
    rw [objKeys_cons] at hnd
    rcases List.nodup_cons.mp hnd with ⟨hk1, hndrest⟩
    by_cases hk : k1 = k
    · subst hk
      have hv : v1 = v := by simpa [lookupA] using h
      subst hv
      rw [lookupA_spreadInto_notKey _ _ _ hk1]
      exact lookupA_setField_self base k1 v1
    · have h' : lookupA rest k = some v := by simpa [lookupA, hk] using h
      exact ih (setField base k1 v1) hndrest h'

theorem lookupA_spreadInto_nodup (base src : Obj) (k : String)
    (hnd : (objKeys src).Nodup) (hbase : k ∉ objKeys base) :
    lookupA (spreadInto base src) k = lookupA src k := by
  cases hsrc : lookupA src k with
  | none =>
    rw [lookupA_spreadInto_notKey base src k ((lookupA_eq_none_iff src k).mp hsrc)]
    exact (lookupA_eq_none_iff base k).mpr hbase
  | some v => exact lookupA_spreadInto_of_lookup base src k v hnd hsrc

/-- Looking up a record field that differs from "id" in the condition
record object literal sees exactly the request body field, when the body
has unique keys. -/
theorem lookupA_conditionData_ne_id (u : String) (body : Obj) (k : String)
    (hnd : (objKeys body).Nodup) (hk : k ≠ "id") :
    lookupA (spreadInto [("id", JsonVal.str u)] body) k = lookupA body k :=
  lookupA_spreadInto_nodup _ body k hnd (by simp [objKeys, hk])

/-- The condition record carries the generated id when the body does not
supply one. -/
theorem lookupA_conditionData_id (u : String) (body : Obj)
    (h : "id" ∉ objKeys body) :
    lookupA (spreadInto [("id", JsonVal.str u)] body) "id"
      = some (JsonVal.str u) := by
  rw [lookupA_spreadInto_notKey _ body _ h]
  simp [lookupA]

/-! ## Store lemmas -/

theorem lookupA_updateDoc (s : Store) (d : String) (fs : Obj) (k : String) :
    lookupA (updateDoc s d fs) k =
      if k = d then (lookupA s k).map (fun doc => spreadInto doc fs)
      else lookupA s k := by
  induction s with
  | nil => simp [updateDoc, lookupA]
  | cons kv rest ih =>
    rcases kv with ⟨k1, doc1⟩
    rw [show updateDoc ((k1, doc1) :: rest) d fs
        = (if k1 = d then (k1, spreadInto doc1 fs) else (k1, doc1)) :: updateDoc rest d fs
        from rfl]
    by_cases hd : k1 = d
    · by_cases hk : k1 = k
      · have hkd : k = d := hk.symm.trans hd
        rw [if_pos hd]
        simp [lookupA, hk, hkd]
      · have hkd : ¬ k = d := fun hh => hk (hd.trans hh.symm)
        rw [if_pos hd]
        simp [lookupA, hk, hkd, ih]
    · by_cases hk : k1 = k
      · have hkd : ¬ k = d := fun hh => hd (hk.trans hh)
        rw [if_neg hd]
        simp [lookupA, hk, hkd]
      · rw [if_neg hd]
        simp [lookupA, hk, ih]


theorem condsOf_setConditions (doc : Obj) (xs : List JsonVal) :
    condsOf (spreadInto doc [("conditions", JsonVal.arr xs)]) = some xs := by
  rw [spreadInto_single]
  simp [condsOf, lookupA_setField_self, jsTruthy]

/-- Whether a condition record's id field is the string cid (the records
removed by the delete filter are exactly those satisfying this). -/
def condHasId (cid : String) : JsonVal → Bool
  | .obj fields =>
    match lookupA fields "id" with
    | some (.str s) => s == cid
    | _ => false
  | _ => false

theorem keepCond_eq_not_hasId (cid : String) (c : JsonVal) (h : c ≠ JsonVal.nullVal) :
    keepCond cid c = some (!condHasId cid c) := by
  cases c with
  | nullVal => exact absurd rfl h
  | obj fields =>
    simp only [keepCond, condHasId]
    cases hf : lookupA fields "id" with
    | none => rfl
    | some v => cases v <;> simp [bne]
  | str s => rfl
  | num n => rfl
  | boolVal b => rfl
  | arr xs => rfl

theorem filterConds_eq_filter (cid : String) (cs : List JsonVal)
    (h : ∀ c ∈ cs, c ≠ JsonVal.nullVal) :
    filterConds cid cs = some (cs.filter (fun c => !condHasId cid c)) := by
  induction cs with
  | nil => rfl
  | cons c rest ih =>
    rw [show filterConds cid (c :: rest)
        = match keepCond cid c with
          | none => none
          | some keep =>
            match filterConds cid rest with
            | none => none
            | some tail => some (if keep then c :: tail else tail) from rfl]
    rw [keepCond_eq_not_hasId cid c (h c (by simp)),
        ih (fun x hx => h x (by simp [hx]))]
    by_cases hc : condHasId cid c <;> simp [hc, List.filter]

/-! ## Path lemmas -/

theorem digitChar_ne_slash (d : Nat) : Nat.digitChar d ≠ '/' := by
  rcases Nat.lt_or_ge d 16 with h | h
  · interval_cases d <;> decide
  · have h0 : ¬ d = 0 := by omega
    have h1 : ¬ d = 1 := by omega
    have h2 : ¬ d = 2 := by omega
    have h3 : ¬ d = 3 := by omega
    have h4 : ¬ d = 4 := by omega
    have h5 : ¬ d = 5 := by omega
    have h6 : ¬ d = 6 := by omega
    have h7 : ¬ d = 7 := by omega
    have h8 : ¬ d = 8 := by omega
    have h9 : ¬ d = 9 := by omega
    have h10 : ¬ d = 10 := by omega
    have h11 : ¬ d = 11 := by omega
    have h12 : ¬ d = 12 := by omega
    have h13 : ¬ d = 13 := by omega
    have h14 : ¬ d = 14 := by omega
    have h15 : ¬ d = 15 := by omega
    unfold Nat.digitChar
    rw [if_neg h0, if_neg h1, if_neg h2, if_neg h3, if_neg h4, if_neg h5, if_neg h6,
        if_neg h7, if_neg h8, if_neg h9, if_neg h10, if_neg h11, if_neg h12, if_neg h13,
        if_neg h14, if_neg h15]
    decide

theorem toDigitsCore_ne_slash (b : Nat) (fuel : Nat) :
    ∀ (n : Nat) (ds : List Char), (∀ c ∈ ds, c ≠ '/') →
      ∀ c ∈ Nat.toDigitsCore b fuel n ds, c ≠ '/' := by
  induction fuel with
  | zero =>
    intro n ds h c hc
    simp only [Nat.toDigitsCore] at hc
    exact h c hc
  | succ f ih =>
    intro n ds h c hc
    simp only [Nat.toDigitsCore] at hc
    by_cases hz : n / b = 0
    · rw [if_pos hz] at hc
      rcases List.mem_cons.mp hc with h1 | h1
      · rw [h1]; exact digitChar_ne_slash _
      · exact h c h1
    · rw [if_neg hz] at hc
      refine ih (n / b) (Nat.digitChar (n % b) :: ds) ?_ c hc
      intro x hx
      rcases List.mem_cons.mp hx with h1 | h1
      · rw [h1]; exact digitChar_ne_slash _
      · exact h x h1

/-- Decimal number rendering never produces a path separator. -/
theorem repr_data_ne_slash (n : Nat) : ∀ c ∈ (Nat.repr n).data, c ≠ '/' := by
  intro c hc
  have hd : (Nat.repr n).data = Nat.toDigitsCore 10 (n + 1) n [] := rfl
  rw [hd] at hc
  refine toDigitsCore_ne_slash 10 (n + 1) n [] ?_ c hc
  intro x hx
  simp at hx

theorem splitSegsL_no_slash (l : List Char) (h : ∀ c ∈ l, c ≠ '/') :
    ∀ cur, splitSegsL cur l = [cur.reverse ++ l] := by
  induction l with
  | nil => intro cur; simp [splitSegsL]
  | cons c rest ih =>
    intro cur
    rw [show splitSegsL cur (c :: rest)
        = if c = '/' then cur.reverse :: splitSegsL [] rest else splitSegsL (c :: cur) rest
        from rfl,
        if_neg (h c (List.mem_cons_self _ _)),
        ih (fun x hx => h x (List.mem_cons_of_mem _ hx)) (c :: cur)]
    simp

theorem resolveDots_no_dots (segs : List (List Char))
    (h : ∀ s ∈ segs, s ≠ ['.'] ∧ s ≠ ['.', '.']) :
    ∀ acc, resolveDots acc segs = acc.reverse ++ segs := by
  induction segs with
  | nil => intro acc; simp [resolveDots]
  | cons s rest ih =>
    intro acc
    rw [show resolveDots acc (s :: rest)
        = if s = ['.'] then resolveDots acc rest
          else if s = ['.', '.'] then
            (match acc with
             | [] => resolveDots [] rest
             | _ :: t => resolveDots t rest)
          else resolveDots (s :: acc) rest
        from rfl,
        if_neg (h s (List.mem_cons_self _ _)).1,
        if_neg (h s (List.mem_cons_self _ _)).2,
        ih (fun x hx => h x (List.mem_cons_of_mem _ hx)) (s :: acc)]
    simp

/-- A plain path segment: non-empty, free of the separator, and not a
dot segment.  Under Node path.join such segments pass through verbatim. -/
def PlainSeg (s : String) : Prop :=
  s ≠ "" ∧ (∀ c ∈ s.data, c ≠ '/') ∧ s ≠ "." ∧ s ≠ ".."

theorem data_ne_nil_of_ne_empty (s : String) (h : s ≠ "") : s.data ≠ [] := by
  intro hd
  exact h (String.ext hd)

theorem data_ne_dot (s : String) (h : s ≠ ".") : s.data ≠ ['.'] := by
  intro hd
  exact h (String.ext hd)

theorem data_ne_dotdot (s : String) (h : s ≠ "..") : s.data ≠ ['.', '.'] := by
  intro hd
  exact h (String.ext hd)

theorem pathJoinAbs_plain (v t fn : String)
    (hv : PlainSeg v) (ht : PlainSeg t) (hf : PlainSeg fn) :
    pathJoinAbs ["/documents", v, t, fn]
      = "/documents/" ++ v ++ "/" ++ t ++ "/" ++ fn := by
  obtain ⟨hv1, hv2, hv3, hv4⟩ := hv
  obtain ⟨ht1, ht2, ht3, ht4⟩ := ht
  obtain ⟨hf1, hf2, hf3, hf4⟩ := hf
  have hsplit : ((["/documents", v, t, fn].map String.data).flatMap (splitSegsL []))
      = splitSegsL [] "/documents".data ++ (splitSegsL [] v.data ++
        (splitSegsL [] t.data ++ (splitSegsL [] fn.data ++ []))) := rfl
  have e1 : v.data.isEmpty = false := by
    cases hd : v.data with
    | nil => exact absurd hd (data_ne_nil_of_ne_empty v hv1)
    | cons c cs => rfl
  have e2 : t.data.isEmpty = false := by
    cases hd : t.data with
    | nil => exact absurd hd (data_ne_nil_of_ne_empty t ht1)
    | cons c cs => rfl
  have e3 : fn.data.isEmpty = false := by
    cases hd : fn.data with
    | nil => exact absurd hd (data_ne_nil_of_ne_empty fn hf1)
    | cons c cs => rfl
  have hfilter :
      (([[], "documents".data, v.data, t.data, fn.data].filter (fun l => !l.isEmpty)))
      = ["documents".data, v.data, t.data, fn.data] := by
    simp [List.filter_cons, e1, e2, e3]
  have hres : resolveDots [] ["documents".data, v.data, t.data, fn.data]
      = ["documents".data, v.data, t.data, fn.data] := by
    rw [resolveDots_no_dots _ ?_ []]
    · simp
    · intro s hs
      simp only [List.mem_cons, List.not_mem_nil, or_false] at hs
      rcases hs with h | h | h | h
      · subst h; exact ⟨by decide, by decide⟩
      · subst h; exact ⟨data_ne_dot v hv3, data_ne_dotdot v hv4⟩
      · subst h; exact ⟨data_ne_dot t ht3, data_ne_dotdot t ht4⟩
      · subst h; exact ⟨data_ne_dot fn hf3, data_ne_dotdot fn hf4⟩
  simp only [pathJoinAbs]
  rw [hsplit, splitSegsL_no_slash v.data hv2 [], splitSegsL_no_slash t.data ht2 [],
      splitSegsL_no_slash fn.data hf2 [],
      show splitSegsL [] "/documents".data = [[], "documents".data] from rfl]
  simp only [List.reverse_nil, List.nil_append, List.append_nil]
  rw [show ([[], "documents".data] ++ ([v.data] ++ ([t.data] ++ [fn.data])))
      = [[], "documents".data, v.data, t.data, fn.data] from rfl]
  rw [hfilter, hres]
  apply String.ext
  rw [show (String.mk ('/' :: List.intercalate ['/']
      ["documents".data, v.data, t.data, fn.data])).data
      = '/' :: List.intercalate ['/'] ["documents".data, v.data, t.data, fn.data] from rfl]
  rw [show List.intercalate ['/'] ["documents".data, v.data, t.data, fn.data]
      = "documents".data ++ (['/'] ++ (v.data ++ (['/'] ++ (t.data ++ (['/'] ++ fn.data)))))
      from by simp [List.intercalate, List.intersperse]]
  simp [String.data_append,
        show "/documents/".data = '/' :: ("documents".data ++ ['/']) from rfl,
        show "/".data = ['/'] from rfl]

/-- The generated upload filename {Date.now()}-{originalname} is itself
a plain segment whenever the original name is. -/
theorem plainSeg_filename (now : Nat) (name : String) (hn : PlainSeg name) :
    PlainSeg (Nat.repr now ++ "-" ++ name) := by
  obtain ⟨hn1, hn2, hn3, hn4⟩ := hn
  have hdata : (Nat.repr now ++ "-" ++ name).data
      = (Nat.repr now).data ++ ('-' :: name.data) := by
    rw [String.data_append, String.data_append,
        show "-".data = ['-'] from rfl, List.append_assoc]
    rfl
  have hmem : '-' ∈ (Nat.repr now ++ "-" ++ name).data := by
    rw [hdata]
    exact List.mem_append_right _ (List.mem_cons_self _ _)
  refine ⟨?_, ?_, ?_, ?_⟩
  · intro h
    rw [h] at hmem
    exact absurd hmem (by decide)
  · intro c hc
    rw [hdata] at hc
    rcases List.mem_append.mp hc with h | h
    · exact repr_data_ne_slash now c h
    · rcases List.mem_cons.mp h with h | h
      · rw [h]; decide
      · exact hn2 c h
  · intro h
    rw [h] at hmem
    exact absurd hmem (by decide)
  · intro h
    rw [h] at hmem
    exact absurd hmem (by decide)

/-! ## Claim theorems -/

/-- An upload request carrying a file part but no vehicleId field. -/
def reqNoVid : UploadReq :=
  { vehicleId := none, type := some "insurance",
    file := some { originalname := "card.pdf", size := 5 } }

/-- C1 counterexample: an upload request that carries a file part but
omits the vehicleId field is answered with status 500 (the storage
destination callback fails with a plain Error, which the handler does
not treat as a client error), not with the 400-equivalent the claim
states; no file is persisted. -/
theorem C1_counterexample :
    (handleUpload 0 reqNoVid).status = 500 ∧
    (500 : Nat) ≠ 400 ∧
    (handleUpload 0 reqNoVid).persisted = [] :=
  ⟨rfl, by decide, rfl⟩

/-- C1 (amended): when vehicleId or type is missing from an upload
request, no file is persisted and the request is rejected, with status
500 (storage-destination error) when a file part is present and status
400 (no file uploaded) when it is not. -/
theorem C1_missing_field_rejected (now : Nat) (req : UploadReq)
    (h : req.vehicleId = none ∨ req.type = none) :
    (handleUpload now req).persisted = [] ∧
    (handleUpload now req).status ≠ 200 ∧
    (handleUpload now req).status = (if req.file.isSome then 500 else 400) := by
  rcases req with ⟨rv, rt, rf⟩
  cases rf with
  | none => simp [handleUpload]
  | some f =>
    have hfalse : (!truthyStr rv || !truthyStr rt) = true := by
      rcases h with h | h <;> simp_all [truthyStr]
    simp [handleUpload, hfalse]

theorem C1_missing_field_rejected_witness :
    (reqNoVid.vehicleId = none ∨ reqNoVid.type = none) ∧
    ((handleUpload 0 reqNoVid).persisted = [] ∧
     (handleUpload 0 reqNoVid).status ≠ 200 ∧
     (handleUpload 0 reqNoVid).status = (if reqNoVid.file.isSome then 500 else 400)) :=
  ⟨Or.inl rfl, C1_missing_field_rejected 0 reqNoVid (Or.inl rfl)⟩

/-- C4: adding a condition to a vehicle id with no document answers 404
and leaves the store untouched. -/
theorem C4_add_vehicle_notfound (u : String) (s : Store) (vid : String) (b : Obj)
    (h : lookupA s vid = none) :
    (addCondition u s vid b).1.status = 404 ∧ (addCondition u s vid b).2 = s := by
  simp [addCondition, h]

theorem C4_add_vehicle_notfound_witness :
    lookupA ([] : Store) "v1" = none ∧
    ((addCondition "u1" [] "v1" [("note", JsonVal.str "a")]).1.status = 404 ∧
     (addCondition "u1" [] "v1" [("note", JsonVal.str "a")]).2 = []) :=
  ⟨rfl, C4_add_vehicle_notfound "u1" [] "v1" [("note", JsonVal.str "a")] rfl⟩

/-- C5: reading an existing vehicle whose document has no conditions
field (and, as Firestore guarantees, unique field names and no stored
vehicleId field) yields 200 with conditions equal to the empty array,
the vehicleId key set to the path id, and every other document field
passed through unchanged. -/
theorem C5_get_vehicle_defaults (s : Store) (vid : String) (doc : Obj)
    (hdoc : lookupA s vid = some doc)
    (hnd : (objKeys doc).Nodup)
    (hnc : lookupA doc "conditions" = none)
    (hnv : lookupA doc "vehicleId" = none) :
    (getVehicle s vid).status = 200 ∧
    lookupA (getVehicle s vid).body "conditions" = some (JsonVal.arr []) ∧
    lookupA (getVehicle s vid).body "vehicleId" = some (JsonVal.str vid) ∧
    ∀ k, k ≠ "conditions" → k ≠ "vehicleId" →
      lookupA (getVehicle s vid).body k = lookupA doc k := by
  have hbody : (getVehicle s vid).body
      = setField (spreadInto [("vehicleId", JsonVal.str vid)] doc) "conditions"
          (JsonVal.arr []) := by
    simp [getVehicle, hdoc, hnc]
  have hstatus : (getVehicle s vid).status = 200 := by
    simp [getVehicle, hdoc]
  refine ⟨hstatus, ?_, ?_, ?_⟩
  · rw [hbody]
    exact lookupA_setField_self _ _ _
  · rw [hbody, lookupA_setField_ne _ _ _ _ (by decide)]
    rw [lookupA_spreadInto_notKey _ _ _ ((lookupA_eq_none_iff doc "vehicleId").mp hnv)]
    simp [lookupA]
  · intro k hk1 hk2
    rw [hbody, lookupA_setField_ne _ _ _ _ hk1]
    exact lookupA_spreadInto_nodup _ doc k hnd (by simp [objKeys, hk2])

theorem C5_get_vehicle_defaults_witness :
    lookupA [("v1", [("make", JsonVal.str "Toyota")])] "v1"
      = some [("make", JsonVal.str "Toyota")] ∧
    (getVehicle [("v1", [("make", JsonVal.str "Toyota")])] "v1").status = 200 ∧
    lookupA (getVehicle [("v1", [("make", JsonVal.str "Toyota")])] "v1").body "conditions"
      = some (JsonVal.arr []) ∧
    lookupA (getVehicle [("v1", [("make", JsonVal.str "Toyota")])] "v1").body "vehicleId"
      = some (JsonVal.str "v1") :=
  ⟨rfl,
   (C5_get_vehicle_defaults [("v1", [("make", JsonVal.str "Toyota")])] "v1"
      [("make", JsonVal.str "Toyota")] rfl (by decide) rfl rfl).1,
   (C5_get_vehicle_defaults [("v1", [("make", JsonVal.str "Toyota")])] "v1"
      [("make", JsonVal.str "Toyota")] rfl (by decide) rfl rfl).2.1,
   (C5_get_vehicle_defaults [("v1", [("make", JsonVal.str "Toyota")])] "v1"
      [("make", JsonVal.str "Toyota")] rfl (by decide) rfl rfl).2.2.1⟩

/-- C7: an upload whose file exceeds the 10 MiB multer limit (with both
text fields supplied) is rejected with the client error 400 "File upload
error" — a distinct kind from the 500 used for server errors — and no
file is persisted. -/
theorem C7_oversize_rejected (now : Nat) (req : UploadReq) (f : FilePart)
    (hf : req.file = some f) (hv : truthyStr req.vehicleId = true)
    (ht : truthyStr req.type = true) (hsz : f.size > UPLOAD_SIZE_LIMIT) :
    (handleUpload now req).status = 400 ∧
    (handleUpload now req).message = "File upload error" ∧
    (handleUpload now req).persisted = [] ∧
    (handleUpload now req).status ≠ 500 := by
  rcases req with ⟨rv, rt, rf⟩
  simp only at hf hv ht
  subst hf
  simp [handleUpload, hv, ht, hsz]

/-- An upload request whose file exceeds the 10 MiB limit by one byte. -/
def reqOversize : UploadReq :=
  { vehicleId := some "v1", type := some "insurance",
    file := some { originalname := "big.bin", size := 10485761 } }

theorem C7_oversize_rejected_witness :
    reqOversize.file = some { originalname := "big.bin", size := 10485761 } ∧
    truthyStr reqOversize.vehicleId = true ∧
    truthyStr reqOversize.type = true ∧
    (10485761 > UPLOAD_SIZE_LIMIT) ∧
    ((handleUpload 0 reqOversize).status = 400 ∧
     (handleUpload 0 reqOversize).message = "File upload error" ∧
     (handleUpload 0 reqOversize).persisted = [] ∧
     (handleUpload 0 reqOversize).status ≠ 500) :=
  ⟨rfl, rfl, rfl, by decide,
   C7_oversize_rejected 0 reqOversize _ rfl rfl rfl (by decide)⟩

example :
    (addCondition "u1" [("v1", [])] "v1" [("note", JsonVal.str "a")]).1.status = 201 := rfl
example :
    lookupA (addCondition "u1" [("v1", [])] "v1" [("note", JsonVal.str "a")]).2 "v1"
      = some [("conditions", JsonVal.arr
          [JsonVal.obj [("id", JsonVal.str "u1"), ("note", JsonVal.str "a")]])] := rfl
example :
    (deleteCondition [("v1", [("conditions", JsonVal.arr
        [JsonVal.obj [("id", JsonVal.str "u1")]])])] "v1" "u1").2
      = [("v1", [("conditions", JsonVal.arr [])])] := rfl
example : (getVehicle [("v1", [("make", JsonVal.str "T")])] "v1").body
    = [("vehicleId", JsonVal.str "v1"), ("make", JsonVal.str "T"),
       ("conditions", JsonVal.arr [])] := rfl

/-! ## Success-path lemmas shared by the condition-endpoint claims -/

theorem condsOf_setField (doc : Obj) (xs : List JsonVal) :
    condsOf (setField doc "conditions" (JsonVal.arr xs)) = some xs := by
  simp [condsOf, lookupA_setField_self, jsTruthy]

theorem lookupA_after_setConds (s : Store) (vid : String) (doc : Obj)
    (xs : List JsonVal) (hdoc : lookupA s vid = some doc) :
    lookupA (updateDoc s vid [("conditions", JsonVal.arr xs)]) vid
      = some (setField doc "conditions" (JsonVal.arr xs)) := by
  rw [lookupA_updateDoc]
  simp [hdoc, spreadInto_single]

theorem addCondition_success (u : String) (s : Store) (vid : String) (b doc : Obj)
    (cs : List JsonVal) (hdoc : lookupA s vid = some doc)
    (hcs : condsOf doc = some cs) :
    addCondition u s vid b
      = ({ status := 201, body := spreadInto [("id", JsonVal.str u)] b },
         updateDoc s vid [("conditions",
           JsonVal.arr (cs ++ [JsonVal.obj (spreadInto [("id", JsonVal.str u)] b)]))]) := by
  simp [addCondition, hdoc, hcs]

theorem bind_lookup_updateConds (s : Store) (vid : String) (xs : List JsonVal)
    (d k : String) (hk : k ≠ "conditions") :
    (lookupA (updateDoc s vid [("conditions", JsonVal.arr xs)]) d).bind
        (fun doc => lookupA doc k)
      = (lookupA s d).bind (fun doc => lookupA doc k) := by
  rw [lookupA_updateDoc]
  by_cases hd : d = vid
  · cases hl : lookupA s d with
    | none => simp [hd, hl]
    | some doc =>
      simp [hd, hl, spreadInto_single, lookupA_setField_ne _ _ _ _ hk]
  · simp [hd]

/-! ## Condition-endpoint claims -/

/-- C2 counterexample: adding the same body carrying its own id field
"x" twice leaves two stored records whose ids are both "x" — equal to
each other and different from the freshly generated ids "u1" and "u2",
so the records do not each bear a distinct freshly generated id. -/
theorem C2_counterexample :
    (addCondition "u2" (addCondition "u1" [("v1", [])] "v1"
        [("id", JsonVal.str "x")]).2 "v1" [("id", JsonVal.str "x")]).2
      = [("v1", [("conditions", JsonVal.arr
          [JsonVal.obj [("id", JsonVal.str "x")],
           JsonVal.obj [("id", JsonVal.str "x")]])])] ∧
    "x" ≠ "u1" ∧ "x" ≠ "u2" :=
  ⟨rfl, by decide, by decide⟩

/-- C2 (amended): adding two conditions sequentially whose bodies do not
themselves carry an id field appends both records to the conditions
sequence in order, each record bearing its freshly generated id, and the
two ids are distinct whenever the generated ids are. -/
theorem C2_two_adds (s : Store) (vid u1 u2 : String) (b1 b2 doc : Obj)
    (cs : List JsonVal)
    (hdoc : lookupA s vid = some doc) (hcs : condsOf doc = some cs)
    (hb1 : "id" ∉ objKeys b1) (hb2 : "id" ∉ objKeys b2) (hu : u1 ≠ u2) :
    (addCondition u1 s vid b1).1.status = 201 ∧
    (addCondition u2 (addCondition u1 s vid b1).2 vid b2).1.status = 201 ∧
    (∃ doc2,
      lookupA (addCondition u2 (addCondition u1 s vid b1).2 vid b2).2 vid
        = some doc2 ∧
      condsOf doc2 = some (cs ++
        [JsonVal.obj (spreadInto [("id", JsonVal.str u1)] b1),
         JsonVal.obj (spreadInto [("id", JsonVal.str u2)] b2)])) ∧
    lookupA (spreadInto [("id", JsonVal.str u1)] b1) "id"
      = some (JsonVal.str u1) ∧
    lookupA (spreadInto [("id", JsonVal.str u2)] b2) "id"
      = some (JsonVal.str u2) ∧
    JsonVal.str u1 ≠ JsonVal.str u2 := by
  have ha1 := addCondition_success u1 s vid b1 doc cs hdoc hcs
  have hd1 : lookupA (addCondition u1 s vid b1).2 vid
      = some (setField doc "conditions" (JsonVal.arr
          (cs ++ [JsonVal.obj (spreadInto [("id", JsonVal.str u1)] b1)]))) := by
    rw [ha1]
    exact lookupA_after_setConds s vid doc _ hdoc
  have hcs1 := condsOf_setField doc
    (cs ++ [JsonVal.obj (spreadInto [("id", JsonVal.str u1)] b1)])
  have ha2 := addCondition_success u2 (addCondition u1 s vid b1).2 vid b2 _ _ hd1 hcs1
  refine ⟨by simp [ha1], by simp [ha2], ?_, ?_, ?_, ?_⟩
  · refine ⟨setField (setField doc "conditions" (JsonVal.arr
        (cs ++ [JsonVal.obj (spreadInto [("id", JsonVal.str u1)] b1)])))
        "conditions" (JsonVal.arr
          ((cs ++ [JsonVal.obj (spreadInto [("id", JsonVal.str u1)] b1)])
            ++ [JsonVal.obj (spreadInto [("id", JsonVal.str u2)] b2)])), ?_, ?_⟩
    · rw [ha2]
      exact lookupA_after_setConds _ vid _ _ hd1
    · rw [condsOf_setField]
      simp
  · exact lookupA_conditionData_id u1 b1 hb1
  · exact lookupA_conditionData_id u2 b2 hb2
  · intro h
    cases h
    exact hu rfl

theorem C2_two_adds_witness :
    ("u1" : String) ≠ "u2" ∧
    "id" ∉ objKeys [("note", JsonVal.str "a")] ∧
    (addCondition "u1" [("v1", [("make", JsonVal.str "T")])] "v1"
        [("note", JsonVal.str "a")]).1.status = 201 ∧
    (addCondition "u2" (addCondition "u1" [("v1", [("make", JsonVal.str "T")])] "v1"
        [("note", JsonVal.str "a")]).2 "v1" [("note", JsonVal.str "b")]).1.status = 201 ∧
    lookupA (spreadInto [("id", JsonVal.str "u1")] [("note", JsonVal.str "a")]) "id"
      = some (JsonVal.str "u1") :=
  ⟨by decide, by decide,
   (C2_two_adds [("v1", [("make", JsonVal.str "T")])] "v1" "u1" "u2"
      [("note", JsonVal.str "a")] [("note", JsonVal.str "b")]
      [("make", JsonVal.str "T")] [] rfl rfl (by decide) (by decide) (by decide)).1,
   (C2_two_adds [("v1", [("make", JsonVal.str "T")])] "v1" "u1" "u2"
      [("note", JsonVal.str "a")] [("note", JsonVal.str "b")]
      [("make", JsonVal.str "T")] [] rfl rfl (by decide) (by decide) (by decide)).2.1,
   (C2_two_adds [("v1", [("make", JsonVal.str "T")])] "v1" "u1" "u2"
      [("note", JsonVal.str "a")] [("note", JsonVal.str "b")]
      [("make", JsonVal.str "T")] [] rfl rfl (by decide) (by decide) (by decide)).2.2.2.1⟩

/-- A store whose single vehicle has two condition records sharing the
id "a" (reachable, because the add endpoint lets a body supply its own
id) plus one record with id "b". -/
def storeDupIds : Store :=
  [("v1", [("conditions", JsonVal.arr
      [JsonVal.obj [("id", JsonVal.str "a")],
       JsonVal.obj [("id", JsonVal.str "a")],
       JsonVal.obj [("id", JsonVal.str "b")]])])]

/-- C3 counterexample: deleting id "a" from a document holding two
records with id "a" removes both of them, not exactly one record — the
second id-"a" record, which the claim says is left untouched, is gone
from the result. -/
theorem C3_counterexample :
    (deleteCondition storeDupIds "v1" "a").1.status = 200 ∧
    (deleteCondition storeDupIds "v1" "a").2
      = [("v1", [("conditions",
          JsonVal.arr [JsonVal.obj [("id", JsonVal.str "b")]])])] ∧
    JsonVal.obj [("id", JsonVal.str "a")]
      ∉ [JsonVal.obj [("id", JsonVal.str "b")]] :=
  ⟨rfl, rfl, by simp⟩

/-- C3 (amended): deleting conditionId removes every record whose id
equals it (exactly the one such record when ids are unique within the
document), leaves all other records in their order, answers 200, and
when no record carries that id the sequence is unchanged — still a
success, not an error. -/
theorem C3_delete_filters (s : Store) (vid cid : String) (doc : Obj)
    (cs : List JsonVal)
    (hdoc : lookupA s vid = some doc) (hcs : condsOf doc = some cs)
    (hnn : ∀ c ∈ cs, c ≠ JsonVal.nullVal) :
    (deleteCondition s vid cid).1.status = 200 ∧
    (∃ doc', lookupA (deleteCondition s vid cid).2 vid = some doc' ∧
      condsOf doc' = some (cs.filter (fun c => !condHasId cid c))) ∧
    ((∀ c ∈ cs, condHasId cid c = false) →
      cs.filter (fun c => !condHasId cid c) = cs) := by
  have hfc := filterConds_eq_filter cid cs hnn
  have hdel : deleteCondition s vid cid
      = ({ status := 200,
           body := [("message", JsonVal.str "Condition deleted successfully")] },
         updateDoc s vid [("conditions",
           JsonVal.arr (cs.filter (fun c => !condHasId cid c)))]) := by
    simp [deleteCondition, hdoc, hcs, hfc]
  refine ⟨by simp [hdel], ?_, ?_⟩
  · refine ⟨setField doc "conditions"
        (JsonVal.arr (cs.filter (fun c => !condHasId cid c))), ?_, ?_⟩
    · rw [hdel]
      exact lookupA_after_setConds s vid doc _ hdoc
    · exact condsOf_setField doc _
  · intro h
    refine List.filter_eq_self.mpr ?_
    intro a ha
    simp [h a ha]

theorem C3_delete_filters_witness :
    (deleteCondition [("v1", [("conditions", JsonVal.arr
        [JsonVal.obj [("id", JsonVal.str "a")],
         JsonVal.obj [("id", JsonVal.str "b")]])])] "v1" "a").1.status = 200 ∧
    (∃ doc', lookupA (deleteCondition [("v1", [("conditions", JsonVal.arr
        [JsonVal.obj [("id", JsonVal.str "a")],
         JsonVal.obj [("id", JsonVal.str "b")]])])] "v1" "a").2 "v1" = some doc' ∧
      condsOf doc' = some ([JsonVal.obj [("id", JsonVal.str "a")],
        JsonVal.obj [("id", JsonVal.str "b")]].filter
          (fun c => !condHasId "a" c))) := by
  have hnn : ∀ c ∈ [JsonVal.obj [("id", JsonVal.str "a")],
      JsonVal.obj [("id", JsonVal.str "b")]], c ≠ JsonVal.nullVal := by
    intro c hc
    simp only [List.mem_cons, List.not_mem_nil, or_false] at hc
    rcases hc with h | h <;> subst h <;> intro hnull <;> exact JsonVal.noConfusion hnull
  exact ⟨(C3_delete_filters [("v1", [("conditions", JsonVal.arr
      [JsonVal.obj [("id", JsonVal.str "a")],
       JsonVal.obj [("id", JsonVal.str "b")]])])] "v1" "a"
      [("conditions", JsonVal.arr [JsonVal.obj [("id", JsonVal.str "a")],
        JsonVal.obj [("id", JsonVal.str "b")]])]
      [JsonVal.obj [("id", JsonVal.str "a")], JsonVal.obj [("id", JsonVal.str "b")]]
      rfl rfl hnn).1,
    (C3_delete_filters [("v1", [("conditions", JsonVal.arr
      [JsonVal.obj [("id", JsonVal.str "a")],
       JsonVal.obj [("id", JsonVal.str "b")]])])] "v1" "a"
      [("conditions", JsonVal.arr [JsonVal.obj [("id", JsonVal.str "a")],
        JsonVal.obj [("id", JsonVal.str "b")]])]
      [JsonVal.obj [("id", JsonVal.str "a")], JsonVal.obj [("id", JsonVal.str "b")]]
      rfl rfl hnn).2.1⟩

/-- C8: the record created by the add endpoint is retrievable through
the vehicle read endpoint: the response's conditions value is the
previous sequence with the created record appended, and the created
record agrees with the request body on every field except the injected
id. -/
theorem C8_roundtrip (s : Store) (vid u : String) (b doc : Obj)
    (cs : List JsonVal)
    (hdoc : lookupA s vid = some doc) (hcs : condsOf doc = some cs)
    (hnd : (objKeys b).Nodup) :
    (addCondition u s vid b).1.status = 201 ∧
    (getVehicle (addCondition u s vid b).2 vid).status = 200 ∧
    lookupA (getVehicle (addCondition u s vid b).2 vid).body "conditions"
      = some (JsonVal.arr (cs ++ [JsonVal.obj (addCondition u s vid b).1.body])) ∧
    (∀ k, k ≠ "id" →
      lookupA (addCondition u s vid b).1.body k = lookupA b k) := by
  have ha := addCondition_success u s vid b doc cs hdoc hcs
  have hd1 : lookupA (addCondition u s vid b).2 vid
      = some (setField doc "conditions" (JsonVal.arr
          (cs ++ [JsonVal.obj (spreadInto [("id", JsonVal.str u)] b)]))) := by
    rw [ha]
    exact lookupA_after_setConds s vid doc _ hdoc
  have hlc := lookupA_setField_self doc "conditions" (JsonVal.arr
    (cs ++ [JsonVal.obj (spreadInto [("id", JsonVal.str u)] b)]))
  refine ⟨by simp [ha], ?_, ?_, ?_⟩
  · simp [getVehicle, hd1]
  · rw [show (getVehicle (addCondition u s vid b).2 vid).body
        = setField (spreadInto [("vehicleId", JsonVal.str vid)]
            (setField doc "conditions" (JsonVal.arr
              (cs ++ [JsonVal.obj (spreadInto [("id", JsonVal.str u)] b)]))))
            "conditions" (JsonVal.arr
              (cs ++ [JsonVal.obj (spreadInto [("id", JsonVal.str u)] b)]))
        from by simp [getVehicle, hd1, hlc, jsTruthy]]
    rw [lookupA_setField_self, ha]
  · intro k hk
    rw [ha]
    exact lookupA_conditionData_ne_id u b k hnd hk

theorem C8_roundtrip_witness :
    (objKeys [("note", JsonVal.str "n")]).Nodup ∧
    (addCondition "u1" [("v1", [("make", JsonVal.str "T")])] "v1"
        [("note", JsonVal.str "n")]).1.status = 201 ∧
    (getVehicle (addCondition "u1" [("v1", [("make", JsonVal.str "T")])] "v1"
        [("note", JsonVal.str "n")]).2 "v1").status = 200 ∧
    lookupA (getVehicle (addCondition "u1" [("v1", [("make", JsonVal.str "T")])] "v1"
        [("note", JsonVal.str "n")]).2 "v1").body "conditions"
      = some (JsonVal.arr ([] ++
          [JsonVal.obj (addCondition "u1" [("v1", [("make", JsonVal.str "T")])] "v1"
            [("note", JsonVal.str "n")]).1.body])) :=
  ⟨by decide,
   (C8_roundtrip [("v1", [("make", JsonVal.str "T")])] "v1" "u1"
      [("note", JsonVal.str "n")] [("make", JsonVal.str "T")] [] rfl rfl (by decide)).1,
   (C8_roundtrip [("v1", [("make", JsonVal.str "T")])] "v1" "u1"
      [("note", JsonVal.str "n")] [("make", JsonVal.str "T")] [] rfl rfl (by decide)).2.1,
   (C8_roundtrip [("v1", [("make", JsonVal.str "T")])] "v1" "u1"
      [("note", JsonVal.str "n")] [("make", JsonVal.str "T")] [] rfl rfl (by decide)).2.2.1⟩

/-- C9: when the request body itself carries an id field, the record
stored and returned by the add endpoint keeps the caller-supplied value
— the body is spread after the generated id and overwrites it. -/
theorem C9_caller_id_wins (s : Store) (vid u : String) (b doc : Obj)
    (cs : List JsonVal) (v : JsonVal)
    (hdoc : lookupA s vid = some doc) (hcs : condsOf doc = some cs)
    (hnd : (objKeys b).Nodup) (hid : lookupA b "id" = some v) :
    (addCondition u s vid b).1.status = 201 ∧
    lookupA (addCondition u s vid b).1.body "id" = some v ∧
    (∃ doc', lookupA (addCondition u s vid b).2 vid = some doc' ∧
      condsOf doc' = some (cs ++ [JsonVal.obj (addCondition u s vid b).1.body])) ∧
    (v ≠ JsonVal.str u →
      lookupA (addCondition u s vid b).1.body "id" ≠ some (JsonVal.str u)) := by
  have ha := addCondition_success u s vid b doc cs hdoc hcs
  have hidr : lookupA (spreadInto [("id", JsonVal.str u)] b) "id" = some v :=
    lookupA_spreadInto_of_lookup _ b "id" v hnd hid
  refine ⟨by simp [ha], by rw [ha]; exact hidr, ?_, ?_⟩
  · refine ⟨setField doc "conditions" (JsonVal.arr
        (cs ++ [JsonVal.obj (spreadInto [("id", JsonVal.str u)] b)])), ?_, ?_⟩
    · rw [ha]
      exact lookupA_after_setConds s vid doc _ hdoc
    · rw [ha]
      exact condsOf_setField doc _
  · intro hv hc
    rw [ha] at hc
    rw [hidr] at hc
    exact hv (Option.some.inj hc)

theorem C9_caller_id_wins_witness :
    lookupA [("id", JsonVal.str "mine"), ("note", JsonVal.str "n")] "id"
      = some (JsonVal.str "mine") ∧
    (addCondition "u1" [("v1", [("make", JsonVal.str "T")])] "v1"
        [("id", JsonVal.str "mine"), ("note", JsonVal.str "n")]).1.status = 201 ∧
    lookupA (addCondition "u1" [("v1", [("make", JsonVal.str "T")])] "v1"
        [("id", JsonVal.str "mine"), ("note", JsonVal.str "n")]).1.body "id"
      = some (JsonVal.str "mine") :=
  ⟨rfl,
   (C9_caller_id_wins [("v1", [("make", JsonVal.str "T")])] "v1" "u1"
      [("id", JsonVal.str "mine"), ("note", JsonVal.str "n")]
      [("make", JsonVal.str "T")] [] (JsonVal.str "mine") rfl rfl (by decide) rfl).1,
   (C9_caller_id_wins [("v1", [("make", JsonVal.str "T")])] "v1" "u1"
      [("id", JsonVal.str "mine"), ("note", JsonVal.str "n")]
      [("make", JsonVal.str "T")] [] (JsonVal.str "mine") rfl rfl (by decide) rfl).2.1⟩

/-- C10: both condition write endpoints touch only the conditions field:
reading any key other than conditions of any document gives the same
answer before and after the operation, on every code path. -/
theorem C10_frame_only_conditions (s : Store) (vid u cid : String) (b : Obj)
    (d k : String) (hk : k ≠ "conditions") :
    ((lookupA (addCondition u s vid b).2 d).bind (fun doc => lookupA doc k)
      = (lookupA s d).bind (fun doc => lookupA doc k)) ∧
    ((lookupA (deleteCondition s vid cid).2 d).bind (fun doc => lookupA doc k)
      = (lookupA s d).bind (fun doc => lookupA doc k)) := by
  constructor
  · cases hdoc : lookupA s vid with
    | none => simp [addCondition, hdoc]
    | some doc =>
      cases hcs : condsOf doc with
      | none => simp [addCondition, hdoc, hcs]
      | some cs =>
        rw [show (addCondition u s vid b).2
            = updateDoc s vid [("conditions", JsonVal.arr (cs ++
                [JsonVal.obj (spreadInto [("id", JsonVal.str u)] b)]))]
            from by rw [addCondition_success u s vid b doc cs hdoc hcs]]
        exact bind_lookup_updateConds s vid _ d k hk
  · cases hdoc : lookupA s vid with
    | none => simp [deleteCondition, hdoc]
    | some doc =>
      cases hcs : condsOf doc with
      | none => simp [deleteCondition, hdoc, hcs]
      | some cs =>
        cases hfc : filterConds cid cs with
        | none => simp [deleteCondition, hdoc, hcs, hfc]
        | some cs' =>
          rw [show (deleteCondition s vid cid).2
              = updateDoc s vid [("conditions", JsonVal.arr cs')]
              from by simp [deleteCondition, hdoc, hcs, hfc]]
          exact bind_lookup_updateConds s vid _ d k hk

theorem C10_frame_only_conditions_witness :
    ("make" : String) ≠ "conditions" ∧
    ((lookupA (addCondition "u1" [("v1", [("make", JsonVal.str "T")])] "v1"
        [("note", JsonVal.str "n")]).2 "v1").bind (fun doc => lookupA doc "make")
      = (lookupA [("v1", [("make", JsonVal.str "T")])] "v1").bind
          (fun doc => lookupA doc "make")) ∧
    ((lookupA (deleteCondition [("v1", [("make", JsonVal.str "T")])] "v1" "c1").2
        "v1").bind (fun doc => lookupA doc "make")
      = (lookupA [("v1", [("make", JsonVal.str "T")])] "v1").bind
          (fun doc => lookupA doc "make")) :=
  ⟨by decide,
   (C10_frame_only_conditions [("v1", [("make", JsonVal.str "T")])] "v1" "u1" "c1"
      [("note", JsonVal.str "n")] "v1" "make" (by decide)).1,
   (C10_frame_only_conditions [("v1", [("make", JsonVal.str "T")])] "v1" "u1" "c1"
      [("note", JsonVal.str "n")] "v1" "make" (by decide)).2⟩

/-! ## Upload path-form claim -/

/-- An upload request whose vehicleId is the parent-directory segment,
otherwise valid. -/
def reqTraversal : UploadReq :=
  { vehicleId := some "..", type := some "t",
    file := some { originalname := "card.pdf", size := 1 } }

/-- C6 counterexample: with the non-empty vehicleId "..", the upload
succeeds (200) but path.join normalises the dot-dot segment away, so the
returned path is /t/123-card.pdf — not of the form
/documents/{vehicleId}/{type}/{timestamp}-{originalName}. -/
theorem C6_counterexample :
    (handleUpload 123 reqTraversal).status = 200 ∧
    (handleUpload 123 reqTraversal).path = some "/t/123-card.pdf" ∧
    "/t/123-card.pdf" ≠ "/documents/../t/123-card.pdf" :=
  ⟨rfl, rfl, by decide⟩

/-- C6 (amended): for every successful upload whose vehicleId, type and
original filename are plain path segments (non-empty, containing no
separator, and not "." or ".."), the returned path is exactly
/documents/{vehicleId}/{type}/{timestampMillis}-{originalName}. -/
theorem C6_upload_path_form (now : Nat) (v t name : String) (sz : Nat)
    (hv : PlainSeg v) (ht : PlainSeg t) (hn : PlainSeg name)
    (hsz : sz ≤ UPLOAD_SIZE_LIMIT) :
    (handleUpload now { vehicleId := some v, type := some t,
                        file := some { originalname := name, size := sz } }).status
      = 200 ∧
    (handleUpload now { vehicleId := some v, type := some t,
                        file := some { originalname := name, size := sz } }).path
      = some ("/documents/" ++ v ++ "/" ++ t ++ "/"
          ++ (Nat.repr now ++ "-" ++ name)) := by
  have hcond : (!truthyStr (some v) || !truthyStr (some t)) = false := by
    simp [truthyStr, hv.1, ht.1]
  have hsz' : ¬ (sz > UPLOAD_SIZE_LIMIT) := by omega
  have hjoin := pathJoinAbs_plain v t (Nat.repr now ++ "-" ++ name)
    hv ht (plainSeg_filename now name hn)
  have hmain : handleUpload now { vehicleId := some v, type := some t,
                                  file := some { originalname := name, size := sz } }
      = { status := 200, message := "File uploaded successfully",
          path := some (pathJoinAbs ["/documents", v, t, Nat.repr now ++ "-" ++ name]),
          persisted := [pathJoinAbs ["/documents", v, t, Nat.repr now ++ "-" ++ name]] } := by
    simp only [handleUpload, hcond, hsz', Bool.false_eq_true, if_false, Option.getD]
  rw [hmain]
  refine ⟨rfl, ?_⟩
  show some (pathJoinAbs ["/documents", v, t, Nat.repr now ++ "-" ++ name])
    = some ("/documents/" ++ v ++ "/" ++ t ++ "/" ++ (Nat.repr now ++ "-" ++ name))
  rw [hjoin]

/-- A fully plain upload request. -/
def reqPlain : UploadReq :=
  { vehicleId := some "v1", type := some "insurance",
    file := some { originalname := "card.pdf", size := 5 } }

theorem C6_upload_path_form_witness :
    PlainSeg "v1" ∧ PlainSeg "insurance" ∧ PlainSeg "card.pdf" ∧
    5 ≤ UPLOAD_SIZE_LIMIT ∧
    ((handleUpload 123 reqPlain).status = 200 ∧
     (handleUpload 123 reqPlain).path
       = some ("/documents/" ++ "v1" ++ "/" ++ "insurance" ++ "/"
           ++ (Nat.repr 123 ++ "-" ++ "card.pdf"))) :=
  ⟨⟨by decide, by decide, by decide, by decide⟩,
   ⟨by decide, by decide, by decide, by decide⟩,
   ⟨by decide, by decide, by decide, by decide⟩,
   by decide,
   C6_upload_path_form 123 "v1" "insurance" "card.pdf" 5
     ⟨by decide, by decide, by decide, by decide⟩
     ⟨by decide, by decide, by decide, by decide⟩
     ⟨by decide, by decide, by decide, by decide⟩ (by decide)⟩
